import Mathlib

/-
Verification of the ReaScript socket bridge (python_example/api_server.py and
python_example/api_client.py) against its natural-language specification.

Modelling conventions:
* Bytes are natural numbers; wire buffers are lists of bytes.
* JSON values are the inductive type JVal; JSON numbers are modelled as
  integers (the protocol only exchanges integer ids and JSON-compatible
  values, and no claim depends on float behaviour).
* JSON serialisation and parsing (the json stdlib module, declared out of
  scope by the specification) are abstracted: the server receive path takes
  a parameter loads : List Nat -> Option JVal, where none models a
  JSONDecodeError or UnicodeDecodeError, and outbound responses are traced
  as structured JVal objects rather than re-encoded bytes.
* Sockets are abstracted to handles (Nat); reads in the hold sub-loop are
  driven by an explicit event stream (byte delivered, timeout, peer close,
  other error), mirroring what conn.recv can do in the source.
-/

namespace ReaSocket

/-- JSON-compatible values exchanged on the wire. -/
inductive JVal where
  | null
  | bool (b : Bool)
  | num (n : Int)
  | str (s : String)
  | arr (xs : List JVal)
  | obj (kvs : List (String × JVal))

/-- Python equality of a decoded JSON value against a string literal, as in
req_type == "call": true exactly when the value is that string. -/
def isStrEq (v : JVal) (s : String) : Bool :=
  match v with
  | .str t => t = s
  | _ => false

/-- Lookup of a key in a JSON object, keeping the last binding, as a Python
dict built by json.loads does for duplicate keys. -/
def lookupLast (kvs : List (String × JVal)) (k : String) : Option JVal :=
  match kvs with
  | [] => none
  | (k1, v) :: rest =>
    match lookupLast rest k with
    | some v1 => some v1
    | none => if k1 = k then some v else none

/-- Python request.get(k): returns None when the key is absent or the value
is not a dict. -/
def jget (v : JVal) (k : String) : JVal :=
  match v with
  | .obj kvs => (lookupLast kvs k).getD .null
  | _ => .null

/-- Python request.get(k, default). -/
def jgetD (v : JVal) (k : String) (d : JVal) : JVal :=
  match v with
  | .obj kvs => (lookupLast kvs k).getD d
  | _ => d

/-- Rendering of a JSON value inside a Python f-string, as in
f-string interpolation of the unsupported type or unknown command. Scalar
cases follow Python str(); container rendering is abbreviated, which no
claim depends on. -/
def pyStr : JVal → String
  | .null => "None"
  | .bool true => "True"
  | .bool false => "False"
  | .num n => toString n
  | .str s => s
  | .arr _ => "[...]"
  | .obj _ => "\x7b...\x7d"

/-- Python equality of a decoded JSON value against an int, as used by
resp.get("id") != expected_id. Python treats booleans as the integers 0
and 1. -/
def pyEqInt (v : JVal) (n : Int) : Bool :=
  match v with
  | .num a => a = n
  | .bool a => (if a then (1 : Int) else 0) = n
  | _ => false

/-! ## Frame codec

struct.pack("<I", len(payload)) + payload on the sending side, and the
incremental drain loop of Server.run (lines 197-213 of api_server.py,
together with the persistent field self._expect_len) on the receiving
side. -/

/-- The 4-byte little-endian encoding produced by struct.pack("<I", n). -/
def le32 (n : Nat) : List Nat :=
  [n % 256, n / 256 % 256, n / 65536 % 256, n / 16777216 % 256]

/-- struct.unpack("<I", raw) on exactly four bytes. -/
def decLE (bs : List Nat) : Nat :=
  match bs with
  | [b0, b1, b2, b3] => b0 + 256 * b1 + 65536 * b2 + 16777216 * b3
  | _ => 0

/-- Frame encoding: 4-byte little-endian length prefix followed by the
payload, as built by Client.send of api_client.py line 108 and
Server.send of api_server.py lines 54-55. -/
def encode (payload : List Nat) : List Nat :=
  le32 payload.length ++ payload

/-- The drain loop of Server.run: starting from the persistent expected
length register self._expect_len and the receive buffer self._recv_buf,
repeatedly consume a 4-byte length prefix and then a full body, returning
the final register, the final buffer, and the list of extracted frame
bodies in order. One iteration of the source loop pops the prefix as soon
as 4 bytes are present, then pops the body only when it is complete. -/
def drain : Option Nat → List Nat → Option Nat × List Nat × List (List Nat)
  | none, b =>
    if b.length < 4 then (none, b, [])
    else
      if (b.drop 4).length < decLE (b.take 4) then
        (some (decLE (b.take 4)), b.drop 4, [])
      else
        ((drain none ((b.drop 4).drop (decLE (b.take 4)))).1,
         (drain none ((b.drop 4).drop (decLE (b.take 4)))).2.1,
         (b.drop 4).take (decLE (b.take 4)) ::
           (drain none ((b.drop 4).drop (decLE (b.take 4)))).2.2)
  | some n, b =>
    if b.length < n then (some n, b, [])
    else
      ((drain none (b.drop n)).1, (drain none (b.drop n)).2.1,
       b.take n :: (drain none (b.drop n)).2.2)
termination_by e b => (b.length, match e with | none => 0 | some _ => 1)
decreasing_by
  all_goals simp only [List.length_drop]
  all_goals
    first
      | (left
         omega)
      | (rcases Nat.eq_zero_or_pos n with h0 | h0
         · subst h0
           simp only [Nat.sub_zero]
           exact Prod.Lex.right _ (by omega)
         · left
           omega)

/-- One tick of the receiving side: append the freshly read chunk to the
buffer (api_server.py line 190) and run the drain loop. -/
def feed (st : Option Nat × List Nat) (chunk : List Nat) :
    (Option Nat × List Nat) × List (List Nat) :=
  let r := drain st.1 (st.2 ++ chunk)
  ((r.1, r.2.1), r.2.2)

/-- Feeding a sequence of chunks, each appended to the receive buffer
before the next decode attempt, collecting all extracted frame bodies. -/
def feedAll (st : Option Nat × List Nat) :
    List (List Nat) → (Option Nat × List Nat) × List (List Nat)
  | [] => (st, [])
  | c :: cs =>
    let r := feed st c
    let r2 := feedAll r.1 cs
    (r2.1, r.2 ++ r2.2)

/-- The unconsumed byte stream represented by a decoder state: when the
expected length register is set, the 4-byte prefix already consumed from
the buffer is the little-endian encoding of its value. -/
def virt (e : Option Nat) (b : List Nat) : List Nat :=
  (match e with
   | none => []
   | some n => le32 n) ++ b

/-- A complete frame, 4-byte prefix plus declared body, is present at the
front of a byte stream. -/
def hasFrame (bs : List Nat) : Prop :=
  4 ≤ bs.length ∧ 4 + decLE (bs.take 4) ≤ bs.length

/-! ## Server model

State and handlers of the Server class of api_server.py. Sockets are
handles; the sending direction is traced at message granularity (JSON
serialisation of responses is out of scope per the specification), with
sendBuf the queued not-yet-written responses and sent the flushed ones.
The field invoked is an observation trace recording every host function
invocation performed by the call dispatcher; it affects no behaviour. -/

/-- A binding in the server module globals: either a callable host function
(which may itself raise, modelled by Except) or a non-callable value. -/
inductive GVal where
  | callable (f : List JVal → Except String JVal)
  | notCallable

/-- Python exceptions raised inside the per-request handler. -/
inductive PyExc where
  | valueError (msg : String)
  | nameError (msg : String)
  | jsonDecode (msg : String)
  | fromCall (msg : String)

/-- The failure description carried by the error response, standing for
traceback.format_exc() of the caught exception. -/
def excDesc : PyExc → String
  | .valueError m => "ValueError: " ++ m
  | .nameError m => "NameError: " ++ m
  | .jsonDecode m => "json.decoder.JSONDecodeError: " ++ m
  | .fromCall m => m

/-- State of the Server object of api_server.py. -/
structure SrvState where
  conn : Option Nat
  recvBuf : List Nat
  sendBuf : List JVal
  sent : List JVal
  expectLen : Option Nat
  holding : Bool
  blocking : Bool
  invoked : List (JVal × List JVal)

/-- Server.send and the framing of api_server.py lines 52-55, at response
granularity. -/
def SrvState.sendMessage (s : SrvState) (obj : JVal) : SrvState :=
  { s with sendBuf := s.sendBuf ++ [obj] }

/-- Server flush of api_server.py lines 57-62: a no-op without a
connection, otherwise writes out the whole queued send buffer. -/
def SrvState.flushBlocking (s : SrvState) : SrvState :=
  match s.conn with
  | none => s
  | some _ => { s with sendBuf := [], sent := s.sent ++ s.sendBuf }

/-- Server.reset of api_server.py lines 34-50: clear the holding flag,
discard the connection and both buffers, and clear the pending expected
frame length. -/
def SrvState.reset (s : SrvState) : SrvState :=
  { s with
    holding := false
    conn := none
    recvBuf := []
    sendBuf := []
    expectLen := none }

/-- Server result response, api_server.py lines 114-115. -/
def SrvState.sendResult (s : SrvState) (rid : JVal) (v : JVal) : SrvState :=
  s.sendMessage (.obj [("id", rid), ("type", .str "result"), ("value", v)])

/-- Server error response, api_server.py lines 117-120. -/
def SrvState.sendError (s : SrvState) (rid : JVal) (tb : String) : SrvState :=
  s.sendMessage (.obj [("id", rid), ("type", .str "error"), ("traceback", .str tb)])

/-- Server get callable, api_server.py lines 107-112: the looked-up name
must be exactly a string starting with RPR underscore and bound in the
module globals to a callable. -/
def Server.getCallable (env : String → Option GVal) (name : JVal) :
    Option (List JVal → Except String JVal) :=
  match name with
  | .str s =>
    if s.startsWith "RPR_" then
      match env s with
      | some (.callable f) => some f
      | _ => none
    else none
  | _ => none

/-- Server handle call, api_server.py lines 122-132. Returns the updated
state together with the exception, if one was raised, to be caught by the
enclosing handler. The invocation, when it happens, is recorded in the
invoked trace before the outcome of the function is examined. -/
def Server.handleCall (env : String → Option GVal) (s : SrvState) (req : JVal) :
    SrvState × Option PyExc :=
  match jgetD req "args" (.arr []) with
  | .arr argList =>
    match Server.getCallable env (jget req "name") with
    | none => (s, some (.nameError "function not allowed or not found"))
    | some f =>
      let s1 := { s with invoked := s.invoked ++ [(jget req "name", argList)] }
      match f argList with
      | .error m => (s1, some (.fromCall m))
      | .ok v => (s1.sendResult (jget req "id") v, none)
  | _ => (s, some (.valueError "args must be a list"))

/-- Events observable on a blocking read of the held connection: one byte
delivered, a socket timeout, a zero-length read (peer closed), or any
other socket exception. -/
inductive Ev where
  | byte (b : Nat)
  | timeout
  | closed
  | errored

/-- Outcome of a blocking receive: the requested bytes with the remaining
event stream, an exception escaping Server.recv exact (peer close or other
error), or exhaustion of the modelled event stream. -/
inductive RecvRes where
  | ok (bs : List Nat) (rest : List Ev)
  | fail (rest : List Ev)
  | exhausted

/-- Server recv exact, api_server.py lines 64-78: loop reading until n
bytes are accumulated; a socket timeout is retried; an empty chunk raises
ConnectionError; any already-read partial bytes are discarded when an
exception is raised. -/
def recvExact : Nat → List Ev → RecvRes
  | 0, evs => .ok [] evs
  | _ + 1, [] => .exhausted
  | n + 1, .timeout :: evs => recvExact (n + 1) evs
  | _ + 1, .closed :: evs => .fail evs
  | _ + 1, .errored :: evs => .fail evs
  | n + 1, .byte b :: evs =>
    match recvExact n evs with
    | .ok bs rest => .ok (b :: bs) rest
    | r => r

/-- Server recv message, api_server.py lines 80-83: read the 4-byte length
prefix, then exactly that many body bytes. -/
def recvMessage (evs : List Ev) : RecvRes :=
  match recvExact 4 evs with
  | .ok raw rest => recvExact (decLE raw) rest
  | r => r

mutual

/-- Server handle, api_server.py lines 153-171, dispatching one received
frame body, with every exception of the dispatch converted in place into
an error response exactly as the source try/except does. The HOLD control
branch (lines 143-147) enters the hold sub-loop synchronously. The fuel
argument bounds the modelled recursion depth; none means the computation
was cut off (the source would still be looping). -/
def Server.handle (env : String → Option GVal) (loads : List Nat → Option JVal) :
    Nat → SrvState → List Nat → List Ev → Option (SrvState × List Ev)
  | 0, _, _, _ => none
  | fuel + 1, s, body, evs =>
    match loads body with
    | none => some (s.sendError .null (excDesc (.jsonDecode "Expecting value")), evs)
    | some req =>
      match req with
      | .obj kvs =>
        let rid := jget (.obj kvs) "id"
        if isStrEq (jget (.obj kvs) "type") "call" then
          match Server.handleCall env s (.obj kvs) with
          | (s1, none) => some (s1, evs)
          | (s1, some e) => some (s1.sendError rid (excDesc e), evs)
        else if isStrEq (jget (.obj kvs) "type") "control" then
          if isStrEq (jget (.obj kvs) "cmd") "HOLD" then
            let s1 := (({ s with holding := true }).sendResult rid .null).flushBlocking
            match s1.conn with
            | none => some (s1, evs)
            | some c =>
              match Server.holdIter env loads fuel c { s1 with blocking := true } evs with
              | none => none
              | some (s2, evs2) =>
                some
                  ((match s2.conn with
                    | none => s2
                    | some _ => { s2 with blocking := false }), evs2)
          else if isStrEq (jget (.obj kvs) "cmd") "RELEASE" then
            some (({ s with holding := false }).sendResult rid .null, evs)
          else
            some
              (s.sendError rid
                (excDesc (.valueError ("unknown control cmd: " ++ pyStr (jget (.obj kvs) "cmd")))),
               evs)
        else
          some
            (s.sendError rid
              (excDesc (.valueError
                ("unsupported request type: " ++ pyStr (jget (.obj kvs) "type")))),
             evs)
      | _ => some (s.sendError .null (excDesc (.valueError "request must be an object")), evs)

/-- The while loop of Server hold loop, api_server.py lines 93-101: while
the holding flag is set and the connection is still the held one, read one
full message with blocking reads (any read failure performs a full reset
and exits), dispatch it, and flush the response synchronously. -/
def Server.holdIter (env : String → Option GVal) (loads : List Nat → Option JVal) :
    Nat → Nat → SrvState → List Ev → Option (SrvState × List Ev)
  | 0, _, _, _ => none
  | fuel + 1, c, s, evs =>
    if s.holding ∧ s.conn = some c then
      match recvMessage evs with
      | .exhausted => none
      | .fail rest => some (s.reset, rest)
      | .ok body rest =>
        match Server.handle env loads fuel s body rest with
        | none => none
        | some (s1, rest1) => Server.holdIter env loads fuel c s1.flushBlocking rest1
    else
      some (s, evs)

end

/-- Server hold loop, api_server.py lines 85-105: a no-op without a live
connection; otherwise switch the connection to blocking mode, run the read
and dispatch loop, and on every exit switch the connection, when it is
still live, back to non-blocking mode. -/
def Server.holdLoop (env : String → Option GVal) (loads : List Nat → Option JVal)
    (fuel : Nat) (s : SrvState) (evs : List Ev) : Option (SrvState × List Ev) :=
  match s.conn with
  | none => some (s, evs)
  | some c =>
    match Server.holdIter env loads fuel c { s with blocking := true } evs with
    | none => none
    | some (s2, evs2) =>
      some
        ((match s2.conn with
          | none => s2
          | some _ => { s2 with blocking := false }), evs2)

/-! ## Client model

State and operations of the Client class of api_client.py. Requests
written to the socket are traced in sent; responses arriving from the
server are supplied as already-decoded JVal parameters (the blocking
receive and JSON parsing are deterministic and out of scope per the
specification). -/

/-- State of the Client object of api_client.py: socket handle, count of
sockets opened so far (an observation trace), the next request id counter
starting at 1, the holding flag, and the trace of requests sent. -/
structure CState where
  conn : Option Nat
  opens : Nat
  nextId : Int
  holding : Bool
  sent : List JVal

/-- Client.connect, api_client.py lines 80-90: a no-op when already
connected, otherwise opens a fresh socket. -/
def Client.connect (s : CState) : CState :=
  match s.conn with
  | some _ => s
  | none => { s with conn := some s.opens, opens := s.opens + 1 }

/-- Client.close, api_client.py lines 92-99: a no-op when already closed,
otherwise closes the socket and clears the handle and the holding flag. -/
def Client.close (s : CState) : CState :=
  match s.conn with
  | none => s
  | some _ => { s with conn := none, holding := false }

/-- Client-side failures surfaced by the response handler. -/
inductive CErr where
  | protocolMismatch (expected : Int)
  | serverError (tb : JVal)
  | unknownResponse
  | invalidResponse

/-- The body of Client handle after the id check, api_client.py lines
125-130: return the value of a result response, raise on an error
response, and reject any other response shape. -/
def Client.handleRespType (resp : JVal) : Except CErr JVal :=
  if isStrEq (jget resp "type") "result" then .ok (jget resp "value")
  else if isStrEq (jget resp "type") "error" then
    .error (.serverError (jgetD resp "traceback" (.str "(no traceback)")))
  else .error .unknownResponse

/-- Client handle, api_client.py lines 119-130: when an expected id is
given and the response id differs under Python equality, fail with the
mismatched response ValueError before looking at the response type. -/
def Client.handleResp (resp : JVal) (expected : Option Int) : Except CErr JVal :=
  match expected with
  | some eid =>
    if pyEqInt (jget resp "id") eid then Client.handleRespType resp
    else .error (.protocolMismatch eid)
  | none => Client.handleRespType resp

/-- The call request object of api_client.py lines 153-161. -/
def callRequest (rid : Int) (name : String) (args : List JVal) : JVal :=
  .obj [("id", .num rid), ("type", .str "call"), ("name", .str name), ("args", .arr args)]

/-- The control request object of api_client.py lines 137-144. -/
def controlRequest (rid : Int) (cmd : String) : JVal :=
  .obj [("id", .num rid), ("type", .str "control"), ("cmd", .str cmd)]

/-- Client.call, api_client.py lines 149-165: allocate the next id, send
the call request (connecting first when needed), receive the decoded
response resp, reject a non-object response, and correlate by id. -/
def Client.call (s : CState) (name : String) (args : List JVal) (resp : JVal) :
    CState × Except CErr JVal :=
  let rid := s.nextId
  let s1 := Client.connect { s with nextId := s.nextId + 1 }
  let s2 := { s1 with sent := s1.sent ++ [callRequest rid name args] }
  match resp with
  | .obj _ => (s2, Client.handleResp resp (some rid))
  | _ => (s2, .error .invalidResponse)

/-- Client send control, api_client.py lines 132-147: allocate the next
id, send the control request, and handle the decoded response with the id
check. -/
def Client.sendControl (s : CState) (cmd : String) (resp : JVal) :
    CState × Except CErr JVal :=
  let rid := s.nextId
  let s1 := Client.connect { s with nextId := s.nextId + 1 }
  let s2 := { s1 with sent := s1.sent ++ [controlRequest rid cmd] }
  match resp with
  | .obj _ => (s2, Client.handleResp resp (some rid))
  | _ => (s2, .error .invalidResponse)

/-- Client.release, api_client.py lines 167-173: a no-op when not holding,
otherwise send the RELEASE control request, clearing the holding flag on
every exit path of the send. -/
def Client.release (s : CState) (resp : JVal) : CState :=
  if s.holding then
    { (Client.sendControl s "RELEASE" resp).1 with holding := false }
  else s

/-- The caller-supplied work inside a hold scope, modelled as a sequence
of ordinary client calls, each with the decoded response the server
returns for it; a call whose result is an exception aborts the rest of
the work, as an uncaught exception does in Python. -/
def Client.runCalls (s : CState) :
    List (String × List JVal × JVal) → CState × Option CErr
  | [] => (s, none)
  | (n, args, resp) :: rest =>
    match Client.call s n args resp with
    | (s1, .ok _) => Client.runCalls s1 rest
    | (s1, .error e) => (s1, some e)

/-- How a hold scope exits. -/
inductive ScopeExit where
  | invalidState
  | entryFailed (e : CErr)
  | completed
  | bodyRaised (e : CErr)

/-- Client.hold, api_client.py lines 175-187: reject nesting before
anything is sent; otherwise send HOLD and verify its response, set the
holding flag, run the caller-supplied work, and release on every exit
path, raising or completing accordingly. -/
def Client.holdScope (s : CState) (entryResp : JVal)
    (body : List (String × List JVal × JVal)) (releaseResp : JVal) :
    CState × ScopeExit :=
  if s.holding then (s, .invalidState)
  else
    match Client.sendControl s "HOLD" entryResp with
    | (s1, .error e) => (s1, .entryFailed e)
    | (s1, .ok _) =>
      let s2 := { s1 with holding := true }
      match Client.runCalls s2 body with
      | (s3, none) => (Client.release s3 releaseResp, .completed)
      | (s3, some e) => (Client.release s3 releaseResp, .bodyRaised e)

/-! ## Frame codec lemmas -/

theorem decLE_le32 (n : Nat) (h : n < 4294967296) : decLE (le32 n) = n := by
  simp only [le32, decLE]
  omega

theorem drain_none_short (b : List Nat) (h : b.length < 4) :
    drain none b = (none, b, []) := by
  rw [drain.eq_def]
  simp [h]

theorem drain_none_pfx (b : List Nat) (h : ¬ b.length < 4)
    (h2 : (b.drop 4).length < decLE (b.take 4)) :
    drain none b = (some (decLE (b.take 4)), b.drop 4, []) := by
  have h2a : b.length - 4 < decLE (b.take 4) := by
    have hld : (b.drop 4).length = b.length - 4 := List.length_drop 4 b
    omega
  rw [drain.eq_def]
  simp [h, h2a]

theorem drain_none_full (b : List Nat) (h : ¬ b.length < 4)
    (h2 : ¬ (b.drop 4).length < decLE (b.take 4)) :
    drain none b =
      ((drain none ((b.drop 4).drop (decLE (b.take 4)))).1,
       (drain none ((b.drop 4).drop (decLE (b.take 4)))).2.1,
       (b.drop 4).take (decLE (b.take 4)) ::
         (drain none ((b.drop 4).drop (decLE (b.take 4)))).2.2) := by
  have h2a : ¬ b.length - 4 < decLE (b.take 4) := by
    have hld : (b.drop 4).length = b.length - 4 := List.length_drop 4 b
    omega
  rw [drain.eq_def]
  simp [h, h2a]

theorem drain_some_short (n : Nat) (b : List Nat) (h : b.length < n) :
    drain (some n) b = (some n, b, []) := by
  rw [drain.eq_def]
  simp [h]

theorem drain_some_full (n : Nat) (b : List Nat) (h : ¬ b.length < n) :
    drain (some n) b =
      ((drain none (b.drop n)).1, (drain none (b.drop n)).2.1,
       b.take n :: (drain none (b.drop n)).2.2) := by
  rw [drain.eq_def]
  simp [h]

/-- Draining a buffer extended by fresh bytes factors through draining the
original buffer first: the extracted frames accumulate and the residual
state resumes the decode. This is the incrementality of the decode loop. -/
theorem drain_extend (e : Option Nat) (b : List Nat) : ∀ x : List Nat,
    drain e (b ++ x) =
      ((drain (drain e b).1 ((drain e b).2.1 ++ x)).1,
       (drain (drain e b).1 ((drain e b).2.1 ++ x)).2.1,
       (drain e b).2.2 ++ (drain (drain e b).1 ((drain e b).2.1 ++ x)).2.2) := by
  induction e, b using drain.induct with
  | case1 b h =>
    intro x
    rw [drain_none_short b h]
    simp
  | case2 b h h2 =>
    intro x
    rw [drain_none_pfx b h h2]
    have h4 : 4 ≤ b.length := by omega
    have hx4 : ¬ (b ++ x).length < 4 := by
      simp only [List.length_append]
      omega
    have ht : (b ++ x).take 4 = b.take 4 := List.take_append_of_le_length h4
    have hd : (b ++ x).drop 4 = b.drop 4 ++ x := List.drop_append_of_le_length h4
    by_cases hb : (b.drop 4 ++ x).length < decLE (b.take 4)
    · rw [drain_none_pfx (b ++ x) hx4 (by rw [ht, hd]; exact hb), ht, hd,
        drain_some_short _ _ hb]
      simp
    · rw [drain_none_full (b ++ x) hx4 (by rw [ht, hd]; exact hb)]
      rw [drain_some_full _ _ hb]
      simp [ht, hd]
  | case3 b h h2 ih =>
    intro x
    rw [drain_none_full b h h2]
    have h4 : 4 ≤ b.length := by omega
    have hn : decLE (b.take 4) ≤ (b.drop 4).length := by omega
    have hx4 : ¬ (b ++ x).length < 4 := by
      simp only [List.length_append]
      omega
    have ht : (b ++ x).take 4 = b.take 4 := List.take_append_of_le_length h4
    have hd : (b ++ x).drop 4 = b.drop 4 ++ x := List.drop_append_of_le_length h4
    have hb : ¬ (b.drop 4 ++ x).length < decLE (b.take 4) := by
      simp only [List.length_append]
      omega
    rw [drain_none_full (b ++ x) hx4 (by rw [ht, hd]; exact hb)]
    rw [ht, hd, List.take_append_of_le_length hn, List.drop_append_of_le_length hn]
    rw [ih x]
    simp
  | case4 n b h =>
    intro x
    rw [drain_some_short n b h]
    simp
  | case5 n b h ih =>
    intro x
    rw [drain_some_full n b h]
    have hn : n ≤ b.length := by omega
    have hb : ¬ (b ++ x).length < n := by
      simp only [List.length_append]
      omega
    rw [drain_some_full n (b ++ x) hb]
    rw [List.take_append_of_le_length hn, List.drop_append_of_le_length hn]
    rw [ih x]
    simp

/-- The residual state left by the drain loop is quiescent: draining it
again with no new bytes extracts nothing and changes nothing. -/
theorem drain_quiescent (e : Option Nat) (b : List Nat) :
    drain (drain e b).1 (drain e b).2.1 = ((drain e b).1, (drain e b).2.1, []) := by
  induction e, b using drain.induct with
  | case1 b h =>
    rw [drain_none_short b h]
    exact drain_none_short b h
  | case2 b h h2 =>
    rw [drain_none_pfx b h h2]
    exact drain_some_short _ _ h2
  | case3 b h h2 ih =>
    rw [drain_none_full b h h2]
    exact ih
  | case4 n b h =>
    rw [drain_some_short n b h]
    exact drain_some_short n b h
  | case5 n b h ih =>
    rw [drain_some_full n b h]
    exact ih

/-- Draining the exact encoding of one payload extracts exactly that
payload and leaves an empty quiescent state. -/
theorem drain_encode (p : List Nat) (h : p.length < 4294967296) :
    drain none (encode p) = (none, [], [p]) := by
  have hlen : (encode p).length = 4 + p.length := by
    simp [encode, le32]
    omega
  have h4 : ¬ (encode p).length < 4 := by omega
  have hle : (le32 p.length).length = 4 := by simp [le32]
  have ht : (encode p).take 4 = le32 p.length := by
    rw [encode, List.take_append_of_le_length (by omega), List.take_of_length_le (by omega)]
  have hd : (encode p).drop 4 = p := by
    rw [encode, List.drop_append_of_le_length (by omega)]
    rw [List.drop_of_length_le (by omega)]
    simp
  have hn : decLE ((encode p).take 4) = p.length := by rw [ht, decLE_le32 _ h]
  have h2 : ¬ ((encode p).drop 4).length < decLE ((encode p).take 4) := by
    rw [hn, hd]
    omega
  rw [drain_none_full (encode p) h4 h2, hn, hd]
  simp [drain_none_short]

/-- Feeding chunks one at a time from a quiescent state extracts the same
frames as draining the concatenation of all chunks at once. -/
theorem feedAll_flatten (cs : List (List Nat)) :
    ∀ (e : Option Nat) (b : List Nat),
      drain e b = (e, b, []) →
      feedAll (e, b) cs =
        (((drain e (b ++ cs.flatten)).1, (drain e (b ++ cs.flatten)).2.1),
         (drain e (b ++ cs.flatten)).2.2) := by
  induction cs with
  | nil =>
    intro e b hq
    simp [feedAll, hq]
  | cons c cs ih =>
    intro e b hq
    have hext := drain_extend e (b ++ c) cs.flatten
    have ihr := ih (drain e (b ++ c)).1 (drain e (b ++ c)).2.1 (drain_quiescent e (b ++ c))
    simp only [feedAll, feed, List.flatten_cons, ihr]
    rw [← List.append_assoc, hext]

theorem decLE_le32_mod (n : Nat) : decLE (le32 n) = n % 4294967296 := by
  simp only [le32, decLE]
  omega

theorem le32_decLE (xs : List Nat) (h4 : xs.length = 4) (hb : ∀ y ∈ xs, y < 256) :
    le32 (decLE xs) = xs := by
  match xs, h4 with
  | [b0, b1, b2, b3], _ =>
    have hb0 : b0 < 256 := hb b0 (by simp)
    have hb1 : b1 < 256 := hb b1 (by simp)
    have hb2 : b2 < 256 := hb b2 (by simp)
    have hb3 : b3 < 256 := hb b3 (by simp)
    simp only [decLE, le32, List.cons.injEq, and_true]
    omega

/-- C1: Frame codec round-trip. Encoding any byte payload, the empty one
included, as a 4-byte unsigned little-endian length prefix followed by the
payload, and feeding the encoded bytes to the incremental decoder split
across arbitrarily many chunk boundaries, with each chunk appended to the
receive buffer before the next decode attempt, yields exactly the original
payload and returns the decoder to the empty initial state. The length
bound is the range of the uint32 prefix that struct.pack can produce. -/
theorem frame_roundtrip_chunked (p : List Nat) (cs : List (List Nat))
    (hlen : p.length < 4294967296) (hcs : cs.flatten = encode p) :
    feedAll (none, []) cs = ((none, []), [p]) := by
  have hq : drain none ([] : List Nat) = (none, [], []) := drain_none_short [] (by simp)
  have h := feedAll_flatten cs none [] hq
  rw [List.nil_append, hcs, drain_encode p hlen] at h
  exact h

theorem frame_roundtrip_chunked_witness :
    feedAll (none, []) [[2, 0], [0, 0, 7], [8]] = ((none, []), [[7, 8]])
    ∧ feedAll (none, []) [[], [0, 0], [0, 0], []] = ((none, []), [([] : List Nat)]) :=
  ⟨frame_roundtrip_chunked [7, 8] [[2, 0], [0, 0, 7], [8]] (by norm_num) (by decide),
   frame_roundtrip_chunked [] [[], [0, 0], [0, 0], []] (by norm_num) (by decide)⟩

/-- C2 counterexample: the buffer holding exactly a length prefix that
declares a 1-byte body has fewer than 4 + declared_length bytes, and the
decode attempt reports no payload, yet it does mutate the buffer: the
4-byte prefix is consumed into the persistent expected-length register of
the decoder, so the buffer afterwards is empty rather than unchanged, and
the decoder does keep hidden state beyond the buffer contents. -/
theorem decode_partial_mutates_counterexample :
    ([1, 0, 0, 0] : List Nat).length < 4 + decLE (([1, 0, 0, 0] : List Nat).take 4)
    ∧ (drain none [1, 0, 0, 0]).2.2 = []
    ∧ (drain none [1, 0, 0, 0]).2.1 ≠ [1, 0, 0, 0]
    ∧ (drain none [1, 0, 0, 0]).1 ≠ none := by
  have heq : drain none [1, 0, 0, 0] = (some 1, [], []) := by
    rw [drain_none_pfx [1, 0, 0, 0] (by norm_num) (by simp [decLE])]
    simp [decLE]
  rw [heq]
  refine ⟨by simp [decLE], rfl, by simp, by simp⟩

/-- C2 amended: the incremental decoder returns a completed payload
exactly when at least 4 + declared_length bytes of the frame have arrived
in total; with fewer bytes it reports not-yet-available, but it may
consume an available 4-byte length prefix from the buffer into the
persistent expected-length register. The register together with the
buffer represents exactly the unconsumed byte stream, and that stream is
unchanged by any decode attempt that produces no payload, so repeated
calls resume correctly with no byte lost or duplicated. -/
theorem decode_incremental_amended (e : Option Nat) (b : List Nat)
    (he : ∀ n, e = some n → n < 4294967296)
    (hb : ∀ y ∈ b, y < 256) :
    ((drain e b).2.2 ≠ [] ↔ hasFrame (virt e b))
    ∧ ((drain e b).2.2 = [] →
        virt (drain e b).1 (drain e b).2.1 = virt e b) := by
  induction e, b using drain.induct with
  | case1 b h =>
    rw [drain_none_short b h]
    constructor
    · simp [hasFrame, virt]
      omega
    · intro _
      rfl
  | case2 b h h2 =>
    rw [drain_none_pfx b h h2]
    have hld : (b.drop 4).length = b.length - 4 := List.length_drop 4 b
    constructor
    · simp only [ne_eq, not_true_eq_false, false_iff, hasFrame, virt, List.nil_append]
      omega
    · intro _
      have htb : ∀ y ∈ b.take 4, y < 256 := fun y hy => hb y (List.mem_of_mem_take hy)
      simp only [virt, List.nil_append]
      rw [le32_decLE (b.take 4) (List.length_take_of_le (by omega)) htb]
      exact List.take_append_drop 4 b
  | case3 b h h2 ih =>
    rw [drain_none_full b h h2]
    have hld : (b.drop 4).length = b.length - 4 := List.length_drop 4 b
    constructor
    · simp only [ne_eq, reduceCtorEq, not_false_eq_true, true_iff, hasFrame, virt,
        List.nil_append]
      omega
    · intro hcontra
      simp at hcontra
  | case4 n b h =>
    rw [drain_some_short n b h]
    have hn : n < 4294967296 := he n rfl
    constructor
    · simp only [ne_eq, not_true_eq_false, false_iff, hasFrame, virt]
      have ht : ((le32 n ++ b).take 4) = le32 n := by
        rw [List.take_append_of_le_length (by simp [le32])]
        simp [le32]
      rw [ht, decLE_le32 n hn]
      simp [le32]
      omega
    · intro _
      rfl
  | case5 n b h ih =>
    rw [drain_some_full n b h]
    have hn : n < 4294967296 := he n rfl
    constructor
    · simp only [ne_eq, reduceCtorEq, not_false_eq_true, true_iff, hasFrame, virt]
      have ht : ((le32 n ++ b).take 4) = le32 n := by
        rw [List.take_append_of_le_length (by simp [le32])]
        simp [le32]
      rw [ht, decLE_le32 n hn]
      simp [le32]
      omega
    · intro hcontra
      simp at hcontra

theorem decode_incremental_amended_witness :
    ((drain none [9]).2.2 ≠ [] ↔ hasFrame (virt none [9]))
    ∧ ((drain none [9]).2.2 = [] →
        virt (drain none [9]).1 (drain none [9]).2.1 = virt none [9]) :=
  decode_incremental_amended none [9] (fun _ h => nomatch h) (by decide)

/-! ## Client lemmas -/

theorem connect_preserves (t : CState) :
    (Client.connect t).holding = t.holding ∧ (Client.connect t).sent = t.sent
    ∧ (Client.connect t).nextId = t.nextId := by
  cases h : t.conn <;> simp [Client.connect, h]

theorem call_state (s : CState) (n : String) (a : List JVal) (r : JVal) :
    (Client.call s n a r).1 =
      { Client.connect { s with nextId := s.nextId + 1 } with
        sent := (Client.connect { s with nextId := s.nextId + 1 }).sent
          ++ [callRequest s.nextId n a] } := by
  cases r <;> rfl

theorem sendControl_state (s : CState) (cmd : String) (r : JVal) :
    (Client.sendControl s cmd r).1 =
      { Client.connect { s with nextId := s.nextId + 1 } with
        sent := (Client.connect { s with nextId := s.nextId + 1 }).sent
          ++ [controlRequest s.nextId cmd] } := by
  cases r <;> rfl

theorem call_holding (s : CState) (n : String) (a : List JVal) (r : JVal) :
    (Client.call s n a r).1.holding = s.holding := by
  rw [call_state]
  have h := (connect_preserves { s with nextId := s.nextId + 1 }).1
  simp [h]

theorem runCalls_holding (l : List (String × List JVal × JVal)) :
    ∀ s, (Client.runCalls s l).1.holding = s.holding := by
  induction l with
  | nil =>
    intro s
    rfl
  | cons hd tl ih =>
    intro s
    obtain ⟨n, a, r⟩ := hd
    have hcall := call_holding s n a r
    rcases hc : Client.call s n a r with ⟨s1, res⟩
    rw [hc] at hcall
    cases res with
    | ok v =>
      simp only [Client.runCalls, hc]
      rw [ih s1]
      exact hcall
    | error e =>
      simp only [Client.runCalls, hc]
      exact hcall

/-- C3: Correlation. The call request the client sends carries the id it
allocated from the next-id counter; a response the client accepts as a
value has an id equal under Python equality to that request id; a decoded
object response whose id differs makes the call fail with the mismatched
response error, the ProtocolMismatch of the specification, instead of
returning a value. -/
theorem call_correlation (s : CState) (name : String) (args : List JVal) (resp : JVal) :
    ((Client.call s name args resp).1.sent = s.sent ++ [callRequest s.nextId name args])
    ∧ (∀ v, (Client.call s name args resp).2 = Except.ok v →
        pyEqInt (jget resp "id") s.nextId = true)
    ∧ (∀ kvs, resp = JVal.obj kvs → pyEqInt (jget resp "id") s.nextId = false →
        (Client.call s name args resp).2 = Except.error (CErr.protocolMismatch s.nextId)) := by
  refine ⟨?_, ?_, ?_⟩
  · rw [call_state]
    have h := (connect_preserves { s with nextId := s.nextId + 1 }).2.1
    simp [h]
  · intro v hok
    cases resp with
    | obj kvs =>
      cases hpe : pyEqInt (jget (JVal.obj kvs) "id") s.nextId with
      | true => rfl
      | false =>
        exfalso
        simp [Client.call, Client.handleResp, hpe] at hok
    | null => simp [Client.call] at hok
    | bool b => simp [Client.call] at hok
    | num n => simp [Client.call] at hok
    | str t => simp [Client.call] at hok
    | arr xs => simp [Client.call] at hok
  · intro kvs hresp hpe
    subst hresp
    simp [Client.call, Client.handleResp, hpe]

theorem call_correlation_witness :
    pyEqInt (jget (JVal.obj [("id", JVal.num 1), ("type", JVal.str "result"),
        ("value", JVal.num 5)]) "id") 1 = true
    ∧ (Client.call ⟨none, 0, 1, false, []⟩ "RPR_GetOS" []
        (JVal.obj [("id", JVal.num 2)])).2 = Except.error (CErr.protocolMismatch 1) :=
  ⟨(call_correlation ⟨none, 0, 1, false, []⟩ "RPR_GetOS" []
      (JVal.obj [("id", JVal.num 1), ("type", JVal.str "result"),
        ("value", JVal.num 5)])).2.1 (JVal.num 5) rfl,
   (call_correlation ⟨none, 0, 1, false, []⟩ "RPR_GetOS" []
      (JVal.obj [("id", JVal.num 2)])).2.2 [("id", JVal.num 2)] rfl rfl⟩

/-- C4: Idempotence of the client lifecycle. Connecting when already
connected returns the state verbatim, so the socket handle, the next-id
counter, the holding flag and the count of sockets ever opened are all
unchanged; closing when already closed returns the state verbatim; and
after close the socket handle is always null. -/
theorem client_lifecycle_idempotent (s : CState) :
    (s.conn ≠ none → Client.connect s = s)
    ∧ (s.conn = none → Client.close s = s)
    ∧ (Client.close s).conn = none := by
  cases h : s.conn <;> simp [Client.connect, Client.close, h]

theorem client_lifecycle_idempotent_witness :
    Client.connect ⟨some 0, 1, 1, false, []⟩ = ⟨some 0, 1, 1, false, []⟩
    ∧ Client.close ⟨none, 1, 1, false, []⟩ = ⟨none, 1, 1, false, []⟩ :=
  ⟨(client_lifecycle_idempotent ⟨some 0, 1, 1, false, []⟩).1 (by simp),
   (client_lifecycle_idempotent ⟨none, 1, 1, false, []⟩).2.1 rfl⟩

/-- C5: Hold scope guaranteed release. When entry succeeds, sending HOLD
and accepting its result, then on every exit path of the scope, normal
completion of the caller-supplied work or an exception raised partway
through it, the scope sends a control RELEASE request as its last wire
write and the holding flag is false after scope exit. -/
theorem hold_scope_always_releases (s : CState) (entryResp releaseResp : JVal)
    (body : List (String × List JVal × JVal))
    (hnot : s.holding = false)
    (v : JVal) (hentry : (Client.sendControl s "HOLD" entryResp).2 = Except.ok v) :
    (Client.holdScope s entryResp body releaseResp).1.holding = false
    ∧ ∃ rid, ((Client.holdScope s entryResp body releaseResp).1.sent).getLast? =
        some (controlRequest rid "RELEASE") := by
  rcases hsc : Client.sendControl s "HOLD" entryResp with ⟨s1, res⟩
  rw [hsc] at hentry
  simp only at hentry
  subst hentry
  have hold3 := runCalls_holding body { s1 with holding := true }
  rcases hrc : Client.runCalls { s1 with holding := true } body with ⟨s3, raised⟩
  rw [hrc] at hold3
  have hs3 : s3.holding = true := by simpa using hold3
  have hrel : Client.release s3 releaseResp =
      { (Client.sendControl s3 "RELEASE" releaseResp).1 with holding := false } := by
    simp [Client.release, hs3]
  have hmain : (Client.holdScope s entryResp body releaseResp).1 =
      Client.release s3 releaseResp := by
    cases raised with
    | none => simp [Client.holdScope, hnot, hsc, hrc]
    | some e => simp [Client.holdScope, hnot, hsc, hrc]
  rw [hmain, hrel]
  refine ⟨rfl, s3.nextId, ?_⟩
  rw [sendControl_state]
  have hsent := (connect_preserves { s3 with nextId := s3.nextId + 1 }).2.1
  simp [hsent]

theorem hold_scope_always_releases_witness :
    (Client.holdScope ⟨none, 0, 1, false, []⟩
        (JVal.obj [("id", JVal.num 1), ("type", JVal.str "result"), ("value", JVal.null)])
        []
        (JVal.obj [("id", JVal.num 2), ("type", JVal.str "result"),
          ("value", JVal.null)])).1.holding = false
    ∧ ∃ rid, ((Client.holdScope ⟨none, 0, 1, false, []⟩
        (JVal.obj [("id", JVal.num 1), ("type", JVal.str "result"), ("value", JVal.null)])
        []
        (JVal.obj [("id", JVal.num 2), ("type", JVal.str "result"),
          ("value", JVal.null)])).1.sent).getLast? =
        some (controlRequest rid "RELEASE") :=
  hold_scope_always_releases ⟨none, 0, 1, false, []⟩
    (JVal.obj [("id", JVal.num 1), ("type", JVal.str "result"), ("value", JVal.null)])
    (JVal.obj [("id", JVal.num 2), ("type", JVal.str "result"), ("value", JVal.null)])
    [] rfl JVal.null rfl

/-- C6: Nested hold is rejected. Entering the hold scope while the
holding flag is already set returns the state completely unchanged
together with the InvalidState outcome: no HOLD control request is
appended to the wire trace and the next-id counter is not advanced. -/
theorem nested_hold_rejected (s : CState) (entryResp releaseResp : JVal)
    (body : List (String × List JVal × JVal)) (h : s.holding = true) :
    Client.holdScope s entryResp body releaseResp = (s, ScopeExit.invalidState) := by
  simp [Client.holdScope, h]

theorem nested_hold_rejected_witness :
    Client.holdScope ⟨some 0, 1, 5, true, []⟩ JVal.null [] JVal.null =
      (⟨some 0, 1, 5, true, []⟩, ScopeExit.invalidState) :=
  nested_hold_rejected ⟨some 0, 1, 5, true, []⟩ JVal.null JVal.null [] rfl

/-! ## Server dispatch lemmas -/

theorem handle_call_branch (env : String → Option GVal) (loads : List Nat → Option JVal)
    (fuel : Nat) (s : SrvState) (body : List Nat) (evs : List Ev)
    (kvs : List (String × JVal))
    (hl : loads body = some (JVal.obj kvs))
    (ht : isStrEq (jget (JVal.obj kvs) "type") "call" = true) :
    Server.handle env loads (fuel + 1) s body evs =
      (match Server.handleCall env s (JVal.obj kvs) with
       | (s1, none) => some (s1, evs)
       | (s1, some e) => some (s1.sendError (jget (JVal.obj kvs) "id") (excDesc e), evs)) := by
  simp only [Server.handle, hl, ht, if_true]

theorem getCallable_some (env : String → Option GVal) (name : JVal)
    (f : List JVal → Except String JVal) (h : Server.getCallable env name = some f) :
    ∃ nm, name = JVal.str nm ∧ nm.startsWith "RPR_" = true
      ∧ env nm = some (GVal.callable f) := by
  cases name with
  | str nm =>
    refine ⟨nm, rfl, ?_⟩
    by_cases hp : nm.startsWith "RPR_"
    · cases he : env nm with
      | none =>
        rw [Server.getCallable, if_pos hp, he] at h
        exact absurd h (by simp)
      | some g =>
        cases g with
        | callable f2 =>
          rw [Server.getCallable, if_pos hp, he] at h
          simp only [Option.some.injEq] at h
          subst h
          exact ⟨hp, rfl⟩
        | notCallable =>
          rw [Server.getCallable, if_pos hp, he] at h
          exact absurd h (by simp)
    · rw [Server.getCallable, if_neg hp] at h
      exact absurd h (by simp)
  | null => exact absurd h (by simp [Server.getCallable])
  | bool b => exact absurd h (by simp [Server.getCallable])
  | num n => exact absurd h (by simp [Server.getCallable])
  | arr xs => exact absurd h (by simp [Server.getCallable])
  | obj kvs => exact absurd h (by simp [Server.getCallable])

/-- C7: Per-request error containment on the server. Every exception
raised while decoding or dispatching one received frame body is caught
inside the per-request handler and converted into an error response
carrying the failure description, so dispatch always produces a state
with the response queued instead of propagating: an undecodable body
yields an error response with a null id; a decoded non-object likewise;
a decoded object whose type is missing or unrecognized yields an error
response naming the unsupported type, with the request id preserved; and
an exception out of call handling yields an error response with the
request id preserved. -/
theorem per_request_error_containment (env : String → Option GVal)
    (loads : List Nat → Option JVal) (fuel : Nat) (s : SrvState)
    (body : List Nat) (evs : List Ev) :
    (loads body = none →
      Server.handle env loads (fuel + 1) s body evs =
        some (s.sendError JVal.null (excDesc (.jsonDecode "Expecting value")), evs))
    ∧ (∀ req, loads body = some req → (∀ kvs, req ≠ JVal.obj kvs) →
        Server.handle env loads (fuel + 1) s body evs =
          some (s.sendError JVal.null
            (excDesc (.valueError "request must be an object")), evs))
    ∧ (∀ kvs, loads body = some (JVal.obj kvs) →
        isStrEq (jget (JVal.obj kvs) "type") "call" = false →
        isStrEq (jget (JVal.obj kvs) "type") "control" = false →
        Server.handle env loads (fuel + 1) s body evs =
          some (s.sendError (jget (JVal.obj kvs) "id")
            (excDesc (.valueError
              ("unsupported request type: " ++ pyStr (jget (JVal.obj kvs) "type")))), evs))
    ∧ (∀ kvs e, loads body = some (JVal.obj kvs) →
        isStrEq (jget (JVal.obj kvs) "type") "call" = true →
        (Server.handleCall env s (JVal.obj kvs)).2 = some e →
        Server.handle env loads (fuel + 1) s body evs =
          some ((Server.handleCall env s (JVal.obj kvs)).1.sendError
            (jget (JVal.obj kvs) "id") (excDesc e), evs)) := by
  refine ⟨?_, ?_, ?_, ?_⟩
  · intro h
    simp [Server.handle, h]
  · intro req h hno
    cases req with
    | obj kvs => exact absurd rfl (hno kvs)
    | null => simp [Server.handle, h]
    | bool b => simp [Server.handle, h]
    | num n => simp [Server.handle, h]
    | str t => simp [Server.handle, h]
    | arr xs => simp [Server.handle, h]
  · intro kvs h h1 h2
    simp [Server.handle, h, h1, h2]
  · intro kvs e h ht hc2
    rw [handle_call_branch env loads fuel s body evs kvs h ht]
    rcases hc : Server.handleCall env s (JVal.obj kvs) with ⟨s1, eo⟩
    rw [hc] at hc2
    simp only at hc2
    subst hc2
    rfl

theorem per_request_error_containment_witness :
    Server.handle (fun _ => none) (fun _ => none) 1
        ⟨none, [], [], [], none, false, false, []⟩ [] [] =
      some ((⟨none, [], [], [], none, false, false, []⟩ : SrvState).sendError JVal.null
        (excDesc (.jsonDecode "Expecting value")), []) :=
  (per_request_error_containment (fun _ => none) (fun _ => none) 0
    ⟨none, [], [], [], none, false, false, []⟩ [] []).1 rfl

/-- C8: Reset restores a clean listening state. For every server state,
after a reset the connection handle is null, the receive buffer is empty,
the send buffer is empty, the pending expected frame length is cleared
and the holding flag is false, so the server accepts a fresh connection
with no bytes of the old one carried over. -/
theorem reset_clean_state (s : SrvState) :
    (s.reset).conn = none ∧ (s.reset).recvBuf = [] ∧ (s.reset).sendBuf = []
    ∧ (s.reset).expectLen = none ∧ (s.reset).holding = false := by
  simp [SrvState.reset]

/-- C10: Implicit name whitelist in call dispatch. A host function is
invoked only when the request name is a string starting with RPR
underscore and bound in the module globals to a callable; with a list of
args and a non-whitelisted name the dispatcher raises the NameError that
becomes an error response, invoking nothing; an args field present but
not a list raises the ValueError with no lookup and no invocation; a
request with no args field is invoked with zero arguments; and at the
handler level, a whitelist miss produces exactly the queued error
response. -/
theorem call_dispatch_whitelist (env : String → Option GVal) (s : SrvState) (req : JVal) :
    ((Server.handleCall env s req).1.invoked ≠ s.invoked →
      ∃ nm f argList, jget req "name" = JVal.str nm ∧ nm.startsWith "RPR_" = true
        ∧ env nm = some (GVal.callable f)
        ∧ jgetD req "args" (JVal.arr []) = JVal.arr argList
        ∧ (Server.handleCall env s req).1.invoked = s.invoked ++ [(JVal.str nm, argList)])
    ∧ (∀ argList, jgetD req "args" (JVal.arr []) = JVal.arr argList →
        Server.getCallable env (jget req "name") = none →
        Server.handleCall env s req =
          (s, some (PyExc.nameError "function not allowed or not found")))
    ∧ ((∀ argList, jgetD req "args" (JVal.arr []) ≠ JVal.arr argList) →
        Server.handleCall env s req = (s, some (PyExc.valueError "args must be a list")))
    ∧ (∀ kvs, req = JVal.obj kvs → lookupLast kvs "args" = none →
        ∀ f, Server.getCallable env (jget req "name") = some f →
          (Server.handleCall env s req).1.invoked = s.invoked ++ [(jget req "name", [])])
    ∧ (∀ kvs fuel loads body evs, loads body = some (JVal.obj kvs) →
        isStrEq (jget (JVal.obj kvs) "type") "call" = true →
        jgetD (JVal.obj kvs) "args" (JVal.arr []) =
          JVal.arr ([] : List JVal) →
        Server.getCallable env (jget (JVal.obj kvs) "name") = none →
        Server.handle env loads (fuel + 1) s body evs =
          some (s.sendError (jget (JVal.obj kvs) "id")
            (excDesc (PyExc.nameError "function not allowed or not found")), evs)) := by
  refine ⟨?_, ?_, ?_, ?_, ?_⟩
  · intro hne
    cases ha : jgetD req "args" (JVal.arr []) with
    | arr argList =>
      cases hg : Server.getCallable env (jget req "name") with
      | none => simp [Server.handleCall, ha, hg] at hne
      | some f =>
        obtain ⟨nm, hnm, hp, he⟩ := getCallable_some env _ f hg
        rw [hnm] at hg
        refine ⟨nm, f, argList, hnm, hp, he, rfl, ?_⟩
        cases hf : f argList with
        | error m => simp [Server.handleCall, ha, hg, hf, hnm]
        | ok v =>
          simp [Server.handleCall, ha, hg, hf, hnm, SrvState.sendResult,
            SrvState.sendMessage]
    | null => simp [Server.handleCall, ha] at hne
    | bool b => simp [Server.handleCall, ha] at hne
    | num n => simp [Server.handleCall, ha] at hne
    | str t => simp [Server.handleCall, ha] at hne
    | obj kvs2 => simp [Server.handleCall, ha] at hne
  · intro argList ha hg
    simp [Server.handleCall, ha, hg]
  · intro hno
    cases ha : jgetD req "args" (JVal.arr []) with
    | arr argList => exact absurd ha (hno argList)
    | null => simp [Server.handleCall, ha]
    | bool b => simp [Server.handleCall, ha]
    | num n => simp [Server.handleCall, ha]
    | str t => simp [Server.handleCall, ha]
    | obj kvs2 => simp [Server.handleCall, ha]
  · intro kvs hreq hnone f hg
    subst hreq
    have ha : jgetD (JVal.obj kvs) "args" (JVal.arr []) = JVal.arr [] := by
      simp [jgetD, hnone]
    cases hf : f ([] : List JVal) with
    | error m => simp [Server.handleCall, ha, hg, hf]
    | ok v =>
      simp [Server.handleCall, ha, hg, hf, SrvState.sendResult, SrvState.sendMessage]
  · intro kvs fuel loads body evs hl ht ha hg
    rw [handle_call_branch env loads fuel s body evs kvs hl ht]
    have hcall : Server.handleCall env s (JVal.obj kvs) =
        (s, some (PyExc.nameError "function not allowed or not found")) := by
      simp [Server.handleCall, ha, hg]
    rw [hcall]

theorem call_dispatch_whitelist_witness :
    Server.handleCall (fun _ => none) ⟨none, [], [], [], none, false, false, []⟩
        (JVal.obj [("name", JVal.str "foo")]) =
      (⟨none, [], [], [], none, false, false, []⟩,
        some (PyExc.nameError "function not allowed or not found"))
    ∧ Server.handleCall (fun _ => none) ⟨none, [], [], [], none, false, false, []⟩
        (JVal.obj [("name", JVal.str "RPR_GetOS"), ("args", JVal.num 3)]) =
      (⟨none, [], [], [], none, false, false, []⟩,
        some (PyExc.valueError "args must be a list")) :=
  ⟨(call_dispatch_whitelist (fun _ => none) ⟨none, [], [], [], none, false, false, []⟩
      (JVal.obj [("name", JVal.str "foo")])).2.1 [] rfl rfl,
   (call_dispatch_whitelist (fun _ => none) ⟨none, [], [], [], none, false, false, []⟩
      (JVal.obj [("name", JVal.str "RPR_GetOS"), ("args", JVal.num 3)])).2.2.1
      (fun _ h => JVal.noConfusion h)⟩

/-! ## Hold sub-loop lemmas -/

theorem flush_state (t : SrvState) :
    (t.flushBlocking).conn = t.conn ∧ (t.flushBlocking).holding = t.holding
    ∧ (t.flushBlocking).blocking = t.blocking := by
  cases h : t.conn <;> simp [SrvState.flushBlocking, h]

theorem handleCall_state (env : String → Option GVal) (s : SrvState) (req : JVal) :
    (Server.handleCall env s req).1.conn = s.conn
    ∧ (Server.handleCall env s req).1.holding = s.holding
    ∧ (Server.handleCall env s req).1.blocking = s.blocking := by
  cases ha : jgetD req "args" (JVal.arr []) with
  | arr argList =>
    cases hg : Server.getCallable env (jget req "name") with
    | none => simp [Server.handleCall, ha, hg]
    | some f =>
      cases hf : f argList with
      | error m => simp [Server.handleCall, ha, hg, hf]
      | ok v =>
        simp [Server.handleCall, ha, hg, hf, SrvState.sendResult, SrvState.sendMessage]
  | null => simp [Server.handleCall, ha]
  | bool b => simp [Server.handleCall, ha]
  | num n => simp [Server.handleCall, ha]
  | str t => simp [Server.handleCall, ha]
  | obj kvs2 => simp [Server.handleCall, ha]

theorem handle_control_hold_branch (env : String → Option GVal)
    (loads : List Nat → Option JVal) (fuel : Nat) (s : SrvState) (body : List Nat)
    (evs : List Ev) (kvs : List (String × JVal))
    (hl : loads body = some (JVal.obj kvs))
    (ht : isStrEq (jget (JVal.obj kvs) "type") "call" = false)
    (ht2 : isStrEq (jget (JVal.obj kvs) "type") "control" = true)
    (hh : isStrEq (jget (JVal.obj kvs) "cmd") "HOLD" = true) :
    Server.handle env loads (fuel + 1) s body evs =
      Server.holdLoop env loads fuel
        ((({ s with holding := true }).sendResult
          (jget (JVal.obj kvs) "id") JVal.null).flushBlocking) evs := by
  simp only [Server.handle, Server.holdLoop, hl, ht, ht2, hh, Bool.false_eq_true,
    if_false, if_true]

/-- The hold loop wrapper keeps the connection it was given or loses it to
a reset, assuming the read loop body does at the given fuel. -/
theorem holdLoop_conn (fuel : Nat)
    (ihIter : ∀ (env : String → Option GVal) (loads : List Nat → Option JVal) (c : Nat)
      (s : SrvState) (evs : List Ev) (r : SrvState × List Ev),
      Server.holdIter env loads fuel c s evs = some r →
        r.1.conn = s.conn ∨ r.1.conn = none)
    (env : String → Option GVal) (loads : List Nat → Option JVal)
    (t : SrvState) (evs : List Ev) (r : SrvState × List Ev)
    (h : Server.holdLoop env loads fuel t evs = some r) :
    r.1.conn = t.conn ∨ r.1.conn = none := by
  cases hcn : t.conn with
  | none =>
    simp only [Server.holdLoop, hcn, Option.some.injEq] at h
    subst h
    right
    exact hcn
  | some c =>
    simp only [Server.holdLoop, hcn] at h
    split at h
    · exact absurd h (by simp)
    · rename_i s2 evs2 hit
      have hr2 : s2.conn = some c ∨ s2.conn = none :=
        ihIter env loads c { t with conn := some c, blocking := true } evs (s2, evs2) hit
      split at h
      · rename_i hcn2
        simp only [Option.some.injEq] at h
        subst h
        right
        exact hcn2
      · rename_i c2 hcn2
        simp only [Option.some.injEq] at h
        subst h
        simp only
        rcases hr2 with hr2 | hr2
        · left
          exact hr2
        · rw [hcn2] at hr2
          exact absurd hr2 (by simp)

/-- Dispatch and the hold read loop can only keep the connection they were
given or lose it to a reset: neither ever installs a different one. -/
theorem srv_conn_cases (fuel : Nat) :
    (∀ (env : String → Option GVal) (loads : List Nat → Option JVal) (s : SrvState)
        (body : List Nat) (evs : List Ev) (r : SrvState × List Ev),
      Server.handle env loads fuel s body evs = some r →
        r.1.conn = s.conn ∨ r.1.conn = none)
    ∧ (∀ (env : String → Option GVal) (loads : List Nat → Option JVal) (c : Nat)
        (s : SrvState) (evs : List Ev) (r : SrvState × List Ev),
      Server.holdIter env loads fuel c s evs = some r →
        r.1.conn = s.conn ∨ r.1.conn = none) := by
  induction fuel with
  | zero =>
    constructor
    · intro env loads s body evs r h
      simp [Server.handle] at h
    · intro env loads c s evs r h
      simp [Server.holdIter] at h
  | succ fuel ih =>
    constructor
    · intro env loads s body evs r h
      cases hl : loads body with
      | none =>
        simp only [Server.handle, hl, Option.some.injEq] at h
        subst h
        left
        simp [SrvState.sendError, SrvState.sendMessage]
      | some req =>
        cases req with
        | obj kvs =>
          cases ht : isStrEq (jget (JVal.obj kvs) "type") "call" with
          | true =>
            rcases hc : Server.handleCall env s (JVal.obj kvs) with ⟨s1, eo⟩
            have hconn : s1.conn = s.conn := by
              have hx := (handleCall_state env s (JVal.obj kvs)).1
              rw [hc] at hx
              exact hx
            simp only [Server.handle, hl, ht, if_true] at h
            rw [hc] at h
            cases eo with
            | none =>
              simp only [Option.some.injEq] at h
              subst h
              left
              exact hconn
            | some e =>
              simp only [Option.some.injEq] at h
              subst h
              left
              simpa [SrvState.sendError, SrvState.sendMessage] using hconn
          | false =>
            cases ht2 : isStrEq (jget (JVal.obj kvs) "type") "control" with
            | true =>
              cases hhold : isStrEq (jget (JVal.obj kvs) "cmd") "HOLD" with
              | true =>
                rw [handle_control_hold_branch env loads fuel s body evs kvs
                  hl ht ht2 hhold] at h
                have hr := holdLoop_conn fuel ih.2 env loads _ evs r h
                have hs1conn : ((({ s with holding := true }).sendResult
                    (jget (JVal.obj kvs) "id") JVal.null).flushBlocking).conn = s.conn := by
                  rw [(flush_state _).1]
                  simp [SrvState.sendResult, SrvState.sendMessage]
                rcases hr with hr | hr
                · left
                  rw [hr, hs1conn]
                · right
                  exact hr
              | false =>
                cases hrel : isStrEq (jget (JVal.obj kvs) "cmd") "RELEASE" with
                | true =>
                  simp only [Server.handle, hl, ht, ht2, hhold, hrel, Bool.false_eq_true,
                    if_false, if_true, Option.some.injEq] at h
                  subst h
                  left
                  simp [SrvState.sendResult, SrvState.sendMessage]
                | false =>
                  simp only [Server.handle, hl, ht, ht2, hhold, hrel, Bool.false_eq_true,
                    if_false, if_true, Option.some.injEq] at h
                  subst h
                  left
                  simp [SrvState.sendError, SrvState.sendMessage]
            | false =>
              simp only [Server.handle, hl, ht, ht2, Bool.false_eq_true, if_false,
                Option.some.injEq] at h
              subst h
              left
              simp [SrvState.sendError, SrvState.sendMessage]
        | null =>
          simp only [Server.handle, hl, Option.some.injEq] at h
          subst h
          left
          simp [SrvState.sendError, SrvState.sendMessage]
        | bool b =>
          simp only [Server.handle, hl, Option.some.injEq] at h
          subst h
          left
          simp [SrvState.sendError, SrvState.sendMessage]
        | num n =>
          simp only [Server.handle, hl, Option.some.injEq] at h
          subst h
          left
          simp [SrvState.sendError, SrvState.sendMessage]
        | str t =>
          simp only [Server.handle, hl, Option.some.injEq] at h
          subst h
          left
          simp [SrvState.sendError, SrvState.sendMessage]
        | arr xs =>
          simp only [Server.handle, hl, Option.some.injEq] at h
          subst h
          left
          simp [SrvState.sendError, SrvState.sendMessage]
    · intro env loads c s evs r h
      by_cases hcond : s.holding ∧ s.conn = some c
      · rw [Server.holdIter, if_pos hcond] at h
        split at h
        · exact absurd h (by simp)
        · rename_i rest hm
          simp only [Option.some.injEq] at h
          subst h
          right
          simp [SrvState.reset]
        · rename_i body rest hm
          split at h
          · exact absurd h (by simp)
          · rename_i s1 rest1 hh
            have h1 := ih.1 env loads s body rest (s1, rest1) hh
            have h2 := ih.2 env loads c s1.flushBlocking rest1 r h
            have hfl := (flush_state s1).1
            simp only at h1
            rcases h2 with h2 | h2
            · rw [h2, hfl]
              exact h1
            · right
              exact h2
      · rw [Server.holdIter, if_neg hcond] at h
        simp only [Option.some.injEq] at h
        subst h
        left
        rfl

/-- The hold read loop, given the connection it is guarding, can only stop
with the holding flag cleared or with that connection gone. -/
theorem holdIter_exit (fuel : Nat) :
    ∀ (env : String → Option GVal) (loads : List Nat → Option JVal) (c : Nat)
      (s : SrvState) (evs : List Ev) (r : SrvState × List Ev),
      Server.holdIter env loads fuel c s evs = some r →
      r.1.holding = false ∨ r.1.conn ≠ some c := by
  induction fuel with
  | zero =>
    intro env loads c s evs r h
    simp [Server.holdIter] at h
  | succ fuel ih =>
    intro env loads c s evs r h
    by_cases hcond : s.holding ∧ s.conn = some c
    · rw [Server.holdIter, if_pos hcond] at h
      split at h
      · exact absurd h (by simp)
      · rename_i rest hm
        simp only [Option.some.injEq] at h
        subst h
        left
        simp [SrvState.reset]
      · rename_i body rest hm
        split at h
        · exact absurd h (by simp)
        · rename_i s1 rest1 hh
          exact ih env loads c s1.flushBlocking rest1 r h
    · rw [Server.holdIter, if_neg hcond] at h
      simp only [Option.some.injEq] at h
      subst h
      simp only
      rcases Decidable.not_and_iff_or_not.mp hcond with hx | hx
      · left
        cases hb : s.holding
        · rfl
        · exact absurd hb hx
      · right
        exact hx

/-- C9: Hold sub-loop exit discipline. A blocking-read timeout is retried
by the exact receive loop and never treated as a failure; a peer close or
any other read failure makes the hold loop perform a full reset and exit
immediately; whenever the hold loop returns, the holding flag is false or
the connection was reset away; and on every exit with the connection
still live, the connection has been switched back to non-blocking mode. -/
theorem hold_subloop_exit_discipline (env : String → Option GVal)
    (loads : List Nat → Option JVal) (fuel : Nat) (s : SrvState) (evs : List Ev) :
    (∀ (n : Nat) (evs2 : List Ev),
      recvExact (n + 1) (Ev.timeout :: evs2) = recvExact (n + 1) evs2)
    ∧ (s.holding = true → ∀ c, s.conn = some c →
        ∀ rest, recvMessage evs = RecvRes.fail rest →
        Server.holdLoop env loads (fuel + 1) s evs =
          some (SrvState.reset { s with blocking := true }, rest))
    ∧ (∀ s2 evs2, Server.holdLoop env loads fuel s evs = some (s2, evs2) →
        s.conn ≠ none → s2.holding = false ∨ s2.conn = none)
    ∧ (∀ s2 evs2, Server.holdLoop env loads fuel s evs = some (s2, evs2) →
        s2.conn ≠ none → s2.blocking = false) := by
  refine ⟨?_, ?_, ?_, ?_⟩
  · intro n evs2
    rfl
  · intro hhold c hcn rest hm
    have hcnd : (({ s with conn := some c, blocking := true } : SrvState).holding = true)
        ∧ ({ s with conn := some c, blocking := true } : SrvState).conn = some c :=
      ⟨hhold, rfl⟩
    have hiter : Server.holdIter env loads (fuel + 1) c
        { s with conn := some c, blocking := true } evs =
        some (SrvState.reset { s with conn := some c, blocking := true }, rest) := by
      rw [Server.holdIter, if_pos hcnd, hm]
    simp only [Server.holdLoop, hcn, hiter, SrvState.reset]
  · intro s2 evs2 hres hconn
    cases hcn : s.conn with
    | none => exact absurd hcn hconn
    | some c =>
      simp only [Server.holdLoop, hcn] at hres
      split at hres
      · exact absurd hres (by simp)
      · rename_i s3 evs3 hit
        have hexit := holdIter_exit fuel env loads c
          { s with conn := some c, blocking := true } evs (s3, evs3) hit
        have hcases : s3.conn = some c ∨ s3.conn = none :=
          (srv_conn_cases fuel).2 env loads c
            { s with conn := some c, blocking := true } evs (s3, evs3) hit
        split at hres
        · rename_i hcn3
          simp only [Option.some.injEq, Prod.mk.injEq] at hres
          obtain ⟨h1, h2⟩ := hres
          right
          rw [← h1]
          exact hcn3
        · rename_i c3 hcn3
          simp only [Option.some.injEq, Prod.mk.injEq] at hres
          obtain ⟨h1, h2⟩ := hres
          rcases hexit with he | he
          · left
            rw [← h1]
            exact he
          · rcases hcases with hc2 | hc2
            · exact absurd hc2 he
            · rw [hcn3] at hc2
              exact absurd hc2 (by simp)
  · intro s2 evs2 hres hconn2
    cases hcn : s.conn with
    | none =>
      simp only [Server.holdLoop, hcn, Option.some.injEq, Prod.mk.injEq] at hres
      obtain ⟨h1, h2⟩ := hres
      rw [← h1] at hconn2
      exact absurd hcn hconn2
    | some c =>
      simp only [Server.holdLoop, hcn] at hres
      split at hres
      · exact absurd hres (by simp)
      · rename_i s3 evs3 hit
        split at hres
        · rename_i hcn3
          simp only [Option.some.injEq, Prod.mk.injEq] at hres
          obtain ⟨h1, h2⟩ := hres
          rw [← h1] at hconn2
          exact absurd hcn3 hconn2
        · rename_i c3 hcn3
          simp only [Option.some.injEq, Prod.mk.injEq] at hres
          obtain ⟨h1, h2⟩ := hres
          rw [← h1]

theorem hold_subloop_exit_discipline_witness :
    recvExact 1 [Ev.timeout] = recvExact 1 []
    ∧ Server.holdLoop (fun _ => none) (fun _ => none) 1
        ⟨some 0, [], [], [], none, true, false, []⟩ [Ev.closed] =
      some (SrvState.reset
        { (⟨some 0, [], [], [], none, true, false, []⟩ : SrvState) with
          blocking := true }, []) :=
  ⟨(hold_subloop_exit_discipline (fun _ => none) (fun _ => none) 0
      ⟨some 0, [], [], [], none, true, false, []⟩ []).1 0 [],
   (hold_subloop_exit_discipline (fun _ => none) (fun _ => none) 0
      ⟨some 0, [], [], [], none, true, false, []⟩ [Ev.closed]).2.1 rfl 0 rfl [] rfl⟩

end ReaSocket
